import Mathlib

/-!
Verification of the Murex RPA workflow generator against its specification.

This file gives a shallow embedding of the relevant parts of the repository:

* `_group_text_sequences`, `extract_enhanced_interactions` and
  `_create_time_windows` from `enhanced_murex_rpa_generator.py`;
* `_find_interaction_gaps` and `_assess_workflow_completeness` from
  `complete_video_processor.py`;
* the structural part of `validate_json_file` from `workflow_validator.py`.

Modelling conventions: Python floats are modelled as rationals, Python
strings as `List Char` (with a hand-rolled whitespace strip and substring
test, since the Python code uses `str.strip` and the `in` operator), and
Python dict lookups with defaults as `Option` plus `Option.getD`.  A key
absent from a JSON event is modelled by the corresponding default value
(empty string / `0`) exactly as `dict.get` provides it.
-/

/-- Whitespace strip, modelling Python `str.strip()` (the Python version
strips a slightly larger set of Unicode whitespace; all characters appearing
in this development are ASCII, where the two agree). -/
def strip_chars (s : List Char) : List Char :=
  ((s.dropWhile Char.isWhitespace).reverse.dropWhile Char.isWhitespace).reverse

/-- Substring test, modelling the Python expression `pat in text` on strings. -/
def contains_sub (pat : List Char) : List Char → Bool
  | [] => pat.isEmpty
  | c :: rest => pat.isPrefixOf (c :: rest) || contains_sub pat rest

/-- A keyboard event as recorded in the JSON log.  `type` is
`event.get('type')`, `is_character` the truthiness of
`event.get('is_character')`, `key_name` is `event.get('key_name', '')` and
`timestamp` is `event.get('timestamp', 0)`. -/
structure KeyEvent where
  type : String
  is_character : Bool
  key_name : List Char
  timestamp : ℚ
  deriving DecidableEq

/-- A text sequence emitted by `_group_text_sequences`.  The `timestamp`
field holds the Python `sequence_start` variable, which is `None` until the
first character of a sequence is seen; hence `Option`. -/
structure TextSequence where
  timestamp : Option ℚ
  text : List Char
  end_action : String
  deriving DecidableEq

/-- The loop state of `_group_text_sequences`: sequences emitted so far,
the accumulator `current_text` and the pending `sequence_start`. -/
structure GroupState where
  sequences : List TextSequence
  current_text : List Char
  sequence_start : Option ℚ
  deriving DecidableEq

/-- One iteration of the event loop of `_group_text_sequences`
(`enhanced_murex_rpa_generator.py`, lines 118-153). -/
def group_step (st : GroupState) (event : KeyEvent) : GroupState :=
  if event.type = "key_press" ∧ event.is_character = true then
    let key := event.key_name
    let timestamp := event.timestamp
    if key = "Return".data ∨ key = "Enter".data then
      { sequences :=
          if strip_chars st.current_text ≠ [] then
            st.sequences ++ [⟨st.sequence_start, st.current_text, "enter"⟩]
          else st.sequences,
        current_text := [], sequence_start := none }
    else if key = "Tab".data then
      { sequences :=
          if strip_chars st.current_text ≠ [] then
            st.sequences ++ [⟨st.sequence_start, st.current_text, "tab"⟩]
          else st.sequences,
        current_text := [], sequence_start := none }
    else if key = "Delete".data ∨ key = "BackSpace".data then
      if st.current_text ≠ [] then
        { st with current_text := st.current_text.dropLast }
      else
        { st with sequences := st.sequences ++ [⟨some timestamp, [], "delete"⟩] }
    else if key ≠ [] ∧ key.length = 1 then
      { sequences := st.sequences,
        current_text := st.current_text ++ key,
        sequence_start :=
          if st.current_text = [] then some timestamp else st.sequence_start }
    else st
  else st

/-- `_group_text_sequences` (`enhanced_murex_rpa_generator.py`, lines
111-163): the event loop followed by the final flush of a leftover
accumulator as an `incomplete` sequence. -/
def group_text_sequences (keyboard_events : List KeyEvent) : List TextSequence :=
  let final := keyboard_events.foldl group_step ⟨[], [], none⟩
  if strip_chars final.current_text ≠ [] then
    final.sequences ++ [⟨final.sequence_start, final.current_text, "incomplete"⟩]
  else final.sequences

/-- A mouse event from the JSON log, with the fields
`extract_enhanced_interactions` reads (position coordinates default to 0). -/
structure MouseEvent where
  type : String
  button : String
  timestamp : ℚ
  x : Int
  y : Int
  deriving DecidableEq

/-- An application switch record from the JSON log. -/
structure AppSwitch where
  timestamp : ℚ
  from_app : String
  to_app : String
  deriving DecidableEq

/-- The parsed JSON event log, as read by `extract_enhanced_interactions`
(each list is `data.get(key, [])`). -/
structure EventLog where
  mouse_interactions : List MouseEvent
  keyboard_events : List KeyEvent
  app_switches : List AppSwitch
  deriving DecidableEq

/-- The `UIInteraction` dataclass of `enhanced_murex_rpa_generator.py`. -/
structure UIInteraction where
  timestamp : ℚ
  action_type : String
  description : String
  ui_context : Option String := none
  coordinates : Option (Int × Int) := none
  text_content : Option (List Char) := none
  confidence : ℚ := 0
  deriving DecidableEq

/-- The click interactions built from the mouse events
(`extract_enhanced_interactions`, lines 66-76): left `mouse_press` events
become `click` interactions, in order. -/
def extract_clicks (mouse_events : List MouseEvent) : List UIInteraction :=
  (mouse_events.filter fun e => e.type == "mouse_press" && e.button == "left").map
    fun e =>
      { timestamp := e.timestamp, action_type := "click",
        description := "Click at screen location",
        coordinates := some (e.x, e.y) }

/-- The `type` interactions built from the grouped text sequences
(`extract_enhanced_interactions`, lines 79-90): sequences whose stripped
text is non-empty become `type` interactions, in order.  The emitted
sequences used here always carry a `some` timestamp, so `getD 0` is the
identity on them (the Python code reads the field directly). -/
def extract_types (keyboard_events : List KeyEvent) : List UIInteraction :=
  ((group_text_sequences keyboard_events).filter
      fun s => !(strip_chars s.text).isEmpty).map
    fun s =>
      { timestamp := s.timestamp.getD 0, action_type := "type",
        description := "Type " ++ String.mk s.text,
        ui_context := some s.end_action,
        text_content := some s.text }

/-- The `navigate` interactions built from the application switches
(`extract_enhanced_interactions`, lines 96-102). -/
def extract_navigates (app_switches : List AppSwitch) : List UIInteraction :=
  app_switches.map fun s =>
    { timestamp := s.timestamp, action_type := "navigate",
      description := "Switch from " ++ s.from_app ++ " to " ++ s.to_app,
      ui_context := some ("app_switch:" ++ s.to_app) }

/-- Stable insertion of an interaction into a list sorted by timestamp:
the new element goes in front of the first element with a timestamp at
least as large. -/
def ordered_insert_ts (a : UIInteraction) : List UIInteraction → List UIInteraction
  | [] => [a]
  | b :: l =>
    if a.timestamp ≤ b.timestamp then a :: b :: l else b :: ordered_insert_ts a l

/-- Stable sort by `timestamp`, modelling
`interactions.sort(key=lambda x: x.timestamp)` (Python `list.sort` is a
stable sort; any stable sort by the same key computes the same list). -/
def sort_by_timestamp : List UIInteraction → List UIInteraction
  | [] => []
  | a :: l => ordered_insert_ts a (sort_by_timestamp l)

/-- `extract_enhanced_interactions` (`enhanced_murex_rpa_generator.py`,
lines 58-109): the `type` interactions are appended first, then the
clicks, then the `navigate` interactions, and the result is stably sorted
by timestamp. -/
def extract_enhanced_interactions (log : EventLog) : List UIInteraction :=
  sort_by_timestamp
    (extract_types log.keyboard_events ++ extract_clicks log.mouse_interactions
      ++ extract_navigates log.app_switches)

/-- A time window produced by `_create_time_windows` (the Python dict with
keys `start`, `end`, `interactions`; `end` is a reserved word in Lean). -/
structure TimeWindow where
  start : ℚ
  end_ : ℚ
  interactions : List UIInteraction
  deriving DecidableEq

/-- The loop of `_create_time_windows` over the remaining interactions,
carrying the finished windows and the window under construction. -/
def add_to_windows (window_size : ℚ) :
    List TimeWindow → TimeWindow → List UIInteraction → List TimeWindow
  | ws, cur, [] => ws ++ [cur]
  | ws, cur, i :: rest =>
    if i.timestamp - cur.end_ ≤ window_size then
      add_to_windows window_size ws
        ⟨cur.start, i.timestamp, cur.interactions ++ [i]⟩ rest
    else
      add_to_windows window_size (ws ++ [cur])
        ⟨i.timestamp, i.timestamp, [i]⟩ rest

/-- `_create_time_windows` (`enhanced_murex_rpa_generator.py`, lines
190-220): an empty input yields no windows; otherwise the first
interaction opens a window and the loop either extends the current window
(when the next timestamp is within `window_size` of the current end) or
closes it and opens a new one. -/
def create_time_windows (interactions : List UIInteraction)
    (window_size : ℚ := 2) : List TimeWindow :=
  match interactions with
  | [] => []
  | x :: xs => add_to_windows window_size [] ⟨x.timestamp, x.timestamp, [x]⟩ xs

/-- A gap found by `_find_interaction_gaps` (the Python dict with keys
`start`, `end`, `duration`). -/
structure Gap where
  start : ℚ
  end_ : ℚ
  duration : ℚ
  deriving DecidableEq

/-- The middle loop of `_find_interaction_gaps`: for each adjacent pair of
sorted interactions, emit a gap exactly when the span exceeds the
threshold. -/
def middle_gaps (gap_threshold : ℚ) : List UIInteraction → List Gap
  | [] => []
  | [_] => []
  | a :: b :: rest =>
    (if b.timestamp - a.timestamp > gap_threshold then
        [⟨a.timestamp, b.timestamp, b.timestamp - a.timestamp⟩]
      else [])
      ++ middle_gaps gap_threshold (b :: rest)

/-- `_find_interaction_gaps` (`complete_video_processor.py`, lines
126-169): an empty input returns the single whole-session gap
unconditionally; otherwise the interactions are sorted by timestamp and a
leading gap, the middle gaps and a trailing gap are emitted, each only
when its span exceeds `gap_threshold`. -/
def find_interaction_gaps (interactions : List UIInteraction)
    (session_duration : ℚ) (gap_threshold : ℚ := 5) : List Gap :=
  if interactions = [] then
    [⟨0, session_duration, session_duration⟩]
  else
    match sort_by_timestamp interactions with
    | [] => []
    | first :: rest =>
      (if first.timestamp > gap_threshold then
          [⟨0, first.timestamp, first.timestamp⟩]
        else [])
        ++ middle_gaps gap_threshold (first :: rest)
        ++ (let last := (first :: rest).getLast (List.cons_ne_nil _ _)
            if session_duration - last.timestamp > gap_threshold then
              [⟨last.timestamp, session_duration,
                 session_duration - last.timestamp⟩]
            else [])

/-- The login keyword set of `_assess_workflow_completeness`. -/
def login_words : List (List Char) :=
  ["login".data, "username".data, "password".data, "authenticate".data]

/-- The completion keyword set of `_assess_workflow_completeness`. -/
def completion_words : List (List Char) :=
  ["complete".data, "finish".data, "close".data, "final".data,
   "result".data, "summary".data, "end".data, "done".data]

/-- The Murex-specific UI pattern list of `_assess_workflow_completeness`. -/
def murex_patterns : List (List Char) :=
  ["press spacebar".data, "input field and type".data, "dropdown icon".data,
   "three dots".data, "double-click".data, "top bar".data, "ctrl+f".data,
   "search bar and press enter".data]

/-- The dict returned by `_assess_workflow_completeness`. -/
structure CompletenessAssessment where
  score : ℕ
  has_login : Bool
  has_completion : Bool
  adequate_length : Bool
  has_murex_patterns : Bool
  murex_pattern_count : ℕ
  has_structured_format : Bool
  command_length : ℕ
  expected_min_length : ℕ
  deriving DecidableEq

/-- `command_lower`: the generated commands lowercased
(`rpa_commands.lower()`; ASCII lowercasing, which agrees with Python on
the ASCII texts involved). -/
def command_lower_of (rpa_commands : List Char) : List Char :=
  rpa_commands.map Char.toLower

/-- `has_login` of `_assess_workflow_completeness`: some login keyword
occurs in the lowercased commands. -/
def has_login_of (rpa_commands : List Char) : Bool :=
  login_words.any fun w => contains_sub w (command_lower_of rpa_commands)

/-- `has_completion` of `_assess_workflow_completeness`. -/
def has_completion_of (rpa_commands : List Char) : Bool :=
  completion_words.any fun w => contains_sub w (command_lower_of rpa_commands)

/-- `murex_pattern_count` of `_assess_workflow_completeness`. -/
def murex_pattern_count_of (rpa_commands : List Char) : ℕ :=
  (murex_patterns.filter fun p => contains_sub p (command_lower_of rpa_commands)).length

/-- `has_murex_patterns`: at least 3 Murex-specific patterns occur. -/
def has_murex_patterns_of (rpa_commands : List Char) : Bool :=
  decide (murex_pattern_count_of rpa_commands ≥ 3)

/-- `has_numbered_steps`: both `1.` and `2.` occur in the raw commands. -/
def has_numbered_steps_of (rpa_commands : List Char) : Bool :=
  contains_sub "1.".data rpa_commands && contains_sub "2.".data rpa_commands

/-- `has_descriptive_headers`: `**` occurs in the raw commands. -/
def has_descriptive_headers_of (rpa_commands : List Char) : Bool :=
  contains_sub "**".data rpa_commands

/-- `expected_min_length`: `max(400, len(interactions) * 25)`. -/
def expected_min_length_of (interactions : List UIInteraction) : ℕ :=
  max 400 (interactions.length * 25)

/-- `adequate_length`: `len(rpa_commands) >= expected_min_length`. -/
def adequate_length_of (rpa_commands : List Char)
    (interactions : List UIInteraction) : Bool :=
  decide (rpa_commands.length ≥ expected_min_length_of interactions)

/-- `_assess_workflow_completeness` (`complete_video_processor.py`, lines
479-539).  `session_duration` is a parameter of the Python method but is
not read by it; it is kept for signature fidelity. -/
def assess_workflow_completeness (rpa_commands : List Char)
    (session_duration : ℚ) (interactions : List UIInteraction) :
    CompletenessAssessment :=
  let has_login := has_login_of rpa_commands
  let has_completion := has_completion_of rpa_commands
  let has_murex_patterns := has_murex_patterns_of rpa_commands
  let has_numbered_steps := has_numbered_steps_of rpa_commands
  let has_descriptive_headers := has_descriptive_headers_of rpa_commands
  let adequate_length := adequate_length_of rpa_commands interactions
  let score :=
    (if has_login then 2 else 0) + (if has_completion then 2 else 0)
      + (if adequate_length then 2 else 0)
      + (if has_murex_patterns then 2 else 0)
      + (if has_numbered_steps then 1 else 0)
      + (if has_descriptive_headers then 1 else 0)
  { score := score,
    has_login := has_login,
    has_completion := has_completion,
    adequate_length := adequate_length,
    has_murex_patterns := has_murex_patterns,
    murex_pattern_count := murex_pattern_count_of rpa_commands,
    has_structured_format := has_numbered_steps && has_descriptive_headers,
    command_length := rpa_commands.length,
    expected_min_length := expected_min_length_of interactions }

/-- The `ValidationResult` dataclass of `workflow_validator.py`. -/
structure ValidationResult where
  is_valid : Bool
  message : String
  severity : String
  suggestion : Option String := none
  deriving DecidableEq

/-- The parsed JSON document as `validate_json_file` sees it after
`json.load`: each top-level key is `none` when absent, and
`session_duration` models `data.get('session_info', {}).get('duration', 0)`
before the default is applied. -/
structure JsonData where
  mouse_interactions : Option (List MouseEvent)
  keyboard_events : Option (List KeyEvent)
  session_duration : Option ℚ
  deriving DecidableEq

/-- The structural part of `validate_json_file`
(`workflow_validator.py`, lines 113-169), starting after the successful
`json.load`: the file-existence and JSON-parse branches before it are I/O
and return early.  Three checks run in order: required keys, interaction
counts, session duration; each appends results to the same list. -/
def validate_json_file (data : JsonData) : List ValidationResult :=
  let missing_keys :=
    (if data.mouse_interactions.isNone then ["mouse_interactions"] else [])
      ++ (if data.keyboard_events.isNone then ["keyboard_events"] else [])
  let key_results : List ValidationResult :=
    if missing_keys ≠ [] then
      [{ is_valid := false,
         message := "Missing required JSON keys: " ++ toString missing_keys,
         severity := "error",
         suggestion :=
           some "Ensure the interaction recording captured all required data" }]
    else []
  let mouse_count := (data.mouse_interactions.getD []).length
  let keyboard_count := (data.keyboard_events.getD []).length
  let count_results : List ValidationResult :=
    if mouse_count = 0 ∧ keyboard_count = 0 then
      [{ is_valid := false,
         message := "No interactions found in JSON file",
         severity := "error",
         suggestion := some "Re-record the workflow with user interactions" }]
    else if mouse_count < 3 then
      [{ is_valid := true,
         message := "Very few mouse interactions: " ++ toString mouse_count,
         severity := "warning",
         suggestion :=
           some "Workflow might be too simple or recording may be incomplete" }]
    else
      [{ is_valid := true,
         message := "Interactions found - Mouse: " ++ toString mouse_count
           ++ ", Keyboard: " ++ toString keyboard_count,
         severity := "info" }]
  let duration := data.session_duration.getD 0
  let duration_results : List ValidationResult :=
    if duration = 0 then
      [{ is_valid := true,
         message := "No session duration info",
         severity := "warning",
         suggestion := some "Session duration helps with timing analysis" }]
    else if duration > 600 then
      [{ is_valid := true,
         message := "Long session duration",
         severity := "warning",
         suggestion :=
           some "Long workflows may be complex to process and generate lengthy commands" }]
    else []
  key_results ++ count_results ++ duration_results

/-- The tie-breaking rank asserted by the specification for interactions
with equal timestamps: mouse clicks first, then keyboard types, then
navigations. -/
def claim_rank (i : UIInteraction) : ℕ :=
  if i.action_type = "click" then 0
  else if i.action_type = "type" then 1
  else 2

/-- The tie-breaking rank actually produced by
`extract_enhanced_interactions`: the list is built as types, then clicks,
then navigations, and the sort is stable. -/
def code_rank (i : UIInteraction) : ℕ :=
  if i.action_type = "type" then 0
  else if i.action_type = "click" then 1
  else 2

/-- Lexicographic comparison of interactions by timestamp and then by a
tie-breaking rank. -/
def ts_rank_le (rank : UIInteraction → ℕ) (a b : UIInteraction) : Prop :=
  a.timestamp < b.timestamp ∨ (a.timestamp = b.timestamp ∧ rank a ≤ rank b)

instance (rank : UIInteraction → ℕ) (a b : UIInteraction) :
    Decidable (ts_rank_le rank a b) := by
  unfold ts_rank_le; infer_instance

/-- The list is sorted ascending by timestamp, and entries with equal
timestamps appear in nondecreasing `rank` order. -/
def sorted_with_rank (rank : UIInteraction → ℕ) (l : List UIInteraction) : Prop :=
  l.Pairwise (ts_rank_le rank)

instance (rank : UIInteraction → ℕ) (l : List UIInteraction) :
    Decidable (sorted_with_rank rank l) := by
  unfold sorted_with_rank; infer_instance

/-- A character key press, for concrete test streams. -/
def key_char (c : Char) (t : ℚ) : KeyEvent := ⟨"key_press", true, [c], t⟩

/-- A named (special) key press with `is_character` set, for concrete test
streams. -/
def key_special (s : String) (t : ℚ) : KeyEvent := ⟨"key_press", true, s.data, t⟩

/-- A minimal concrete interaction at a given timestamp, for concrete
inputs to the windower and the gap analyzer. -/
def sample_click (t : ℚ) : UIInteraction :=
  { timestamp := t, action_type := "click",
    description := "Click at screen location" }

/-- A concrete event log holding one left mouse press at timestamp 1 and a
keyboard stream typing the letter h at timestamp 1 followed by Return:
both the click and the text sequence carry timestamp 1. -/
def tie_log : EventLog :=
  ⟨[⟨"mouse_press", "left", 1, 5, 5⟩],
   [key_char 'h' 1, key_special "Return" 2], []⟩

/-! ## Lemmas about the stable sort -/

theorem rank_le_ts {rank : UIInteraction → ℕ} {x y : UIInteraction}
    (h : ts_rank_le rank x y) : x.timestamp ≤ y.timestamp := by
  rcases h with h | h
  · exact le_of_lt h
  · exact le_of_eq h.1

theorem mem_ordered_insert_ts {x a : UIInteraction} {l : List UIInteraction} :
    x ∈ ordered_insert_ts a l ↔ x = a ∨ x ∈ l := by
  induction l with
  | nil => simp [ordered_insert_ts]
  | cons b l ih =>
    simp only [ordered_insert_ts]
    split_ifs
    · simp
    · simp [ih, or_left_comm]

theorem mem_sort_by_timestamp {x : UIInteraction} {l : List UIInteraction} :
    x ∈ sort_by_timestamp l ↔ x ∈ l := by
  induction l with
  | nil => simp [sort_by_timestamp]
  | cons a l ih => simp [sort_by_timestamp, mem_ordered_insert_ts, ih]

theorem length_ordered_insert_ts (a : UIInteraction) (l : List UIInteraction) :
    (ordered_insert_ts a l).length = l.length + 1 := by
  induction l with
  | nil => rfl
  | cons b l ih =>
    simp only [ordered_insert_ts]
    split_ifs <;> simp [ih]

theorem length_sort_by_timestamp (l : List UIInteraction) :
    (sort_by_timestamp l).length = l.length := by
  induction l with
  | nil => rfl
  | cons a l ih => simp [sort_by_timestamp, length_ordered_insert_ts, ih]

theorem ordered_insert_ts_pairwise (rank : UIInteraction → ℕ)
    {a : UIInteraction} {l : List UIInteraction}
    (hl : sorted_with_rank rank l)
    (ha : ∀ y ∈ l, a.timestamp = y.timestamp → rank a ≤ rank y) :
    sorted_with_rank rank (ordered_insert_ts a l) := by
  induction l with
  | nil => simp [ordered_insert_ts, sorted_with_rank]
  | cons b l ih =>
    have hb : ∀ z ∈ l, ts_rank_le rank b z := (List.pairwise_cons.mp hl).1
    have hl' : sorted_with_rank rank l := (List.pairwise_cons.mp hl).2
    simp only [ordered_insert_ts]
    split_ifs with hab
    · refine List.Pairwise.cons ?_ hl
      intro z hz
      have hts : a.timestamp ≤ z.timestamp := by
        rcases List.mem_cons.mp hz with rfl | hz
        · exact hab
        · exact le_trans hab (rank_le_ts (hb z hz))
      rcases lt_or_eq_of_le hts with hlt | heq
      · exact Or.inl hlt
      · exact Or.inr ⟨heq, ha z hz heq⟩
    · refine List.Pairwise.cons ?_
        (ih hl' fun y hy h => ha y (List.mem_cons_of_mem b hy) h)
      intro z hz
      rcases mem_ordered_insert_ts.mp hz with rfl | hz
      · exact Or.inl (lt_of_not_le hab)
      · exact hb z hz

theorem sort_by_timestamp_sorted (rank : UIInteraction → ℕ)
    (l : List UIInteraction)
    (h : l.Pairwise fun x y => x.timestamp = y.timestamp → rank x ≤ rank y) :
    sorted_with_rank rank (sort_by_timestamp l) := by
  induction l with
  | nil => simp [sort_by_timestamp, sorted_with_rank]
  | cons a l ih =>
    rw [List.pairwise_cons] at h
    exact ordered_insert_ts_pairwise rank (ih h.2)
      fun y hy => h.1 y (mem_sort_by_timestamp.mp hy)

/-! ## Lemmas about the three interaction blocks -/

theorem extract_types_action (k : List KeyEvent) :
    ∀ i ∈ extract_types k, i.action_type = "type" := by
  intro i hi
  simp only [extract_types, List.mem_map] at hi
  obtain ⟨s, _, rfl⟩ := hi
  rfl

theorem extract_clicks_action (m : List MouseEvent) :
    ∀ i ∈ extract_clicks m, i.action_type = "click" := by
  intro i hi
  simp only [extract_clicks, List.mem_map] at hi
  obtain ⟨e, _, rfl⟩ := hi
  rfl

theorem extract_navigates_action (s : List AppSwitch) :
    ∀ i ∈ extract_navigates s, i.action_type = "navigate" := by
  intro i hi
  simp only [extract_navigates, List.mem_map] at hi
  obtain ⟨e, _, rfl⟩ := hi
  rfl

theorem extract_pairwise_code_rank (log : EventLog) :
    (extract_types log.keyboard_events ++ extract_clicks log.mouse_interactions
        ++ extract_navigates log.app_switches).Pairwise
      fun x y => x.timestamp = y.timestamp → code_rank x ≤ code_rank y := by
  have htype : ∀ i ∈ extract_types log.keyboard_events, code_rank i = 0 := by
    intro i hi; simp [code_rank, extract_types_action _ i hi]
  have hclick : ∀ i ∈ extract_clicks log.mouse_interactions, code_rank i = 1 := by
    intro i hi; simp [code_rank, extract_clicks_action _ i hi]
  have hnav : ∀ i ∈ extract_navigates log.app_switches, code_rank i = 2 := by
    intro i hi; simp [code_rank, extract_navigates_action _ i hi]
  rw [List.pairwise_append, List.pairwise_append]
  refine ⟨⟨?_, ?_, ?_⟩, ?_, ?_⟩
  · exact List.pairwise_of_forall_mem_list fun a ha b hb _ => by
      rw [htype a ha, htype b hb]
  · exact List.pairwise_of_forall_mem_list fun a ha b hb _ => by
      rw [hclick a ha, hclick b hb]
  · intro a ha b hb _
    rw [htype a ha, hclick b hb]
    exact Nat.zero_le 1
  · exact List.pairwise_of_forall_mem_list fun a ha b hb _ => by
      rw [hnav a ha, hnav b hb]
  · intro a ha b hb _
    rw [hnav b hb]
    rcases List.mem_append.mp ha with h | h
    · rw [htype a h]; exact Nat.zero_le 2
    · rw [hclick a h]; exact Nat.le_succ 1

/-- C1 (counterexample): for the concrete log `tie_log`, the click and the
typed text share timestamp 1, yet the output lists the `type` interaction
before the `click` interaction, so the claimed tie order (mouse click
before keyboard type) fails. -/
theorem C1_tie_order_counterexample :
    ((extract_enhanced_interactions tie_log).map
        (fun i => (i.action_type, i.timestamp)) = [("type", 1), ("click", 1)])
      ∧ ¬ sorted_with_rank claim_rank (extract_enhanced_interactions tie_log) := by
  constructor
  · decide
  · decide

/-- C1 (amended): for every event log, the list returned by
`extract_enhanced_interactions` is sorted ascending by timestamp, and
entries with equal timestamp preserve the relative order keyboard type
before mouse click before navigate. -/
theorem C1_extract_interactions_sorted (log : EventLog) :
    sorted_with_rank code_rank (extract_enhanced_interactions log) :=
  sort_by_timestamp_sorted code_rank _ (extract_pairwise_code_rank log)

/-- C2: a Return/Enter key press (with `is_character` set, as required by
the event loop) emits the pending sequence with `end_action` `enter`
exactly when the accumulator is non-empty after stripping whitespace, and
resets the accumulator and the sequence start regardless; in particular
the stream h, i, Enter yields exactly one sequence with text `hi` and end
action `enter`. -/
theorem C2_return_flushes_sequence (st : GroupState) (e : KeyEvent)
    (htype : e.type = "key_press") (hchar : e.is_character = true)
    (hkey : e.key_name = "Return".data ∨ e.key_name = "Enter".data) :
    group_step st e =
      { sequences :=
          if strip_chars st.current_text ≠ [] then
            st.sequences ++ [⟨st.sequence_start, st.current_text, "enter"⟩]
          else st.sequences,
        current_text := [], sequence_start := none }
    ∧ group_text_sequences
        [key_char 'h' 1, key_char 'i' 2, key_special "Return" 3]
      = [⟨some 1, "hi".data, "enter"⟩] := by
  constructor
  · rcases hkey with h | h <;> simp [group_step, htype, hchar, h]
  · decide

/-- C2 (witness): the Return step applied to the state holding the
accumulator `hi` emits that sequence and clears the state. -/
theorem C2_return_flushes_sequence_witness :
    group_step ⟨[], "hi".data, some 1⟩ ⟨"key_press", true, "Return".data, 3⟩
      = ⟨[⟨some 1, "hi".data, "enter"⟩], [], none⟩ := by
  have h := (C2_return_flushes_sequence ⟨[], "hi".data, some 1⟩
    ⟨"key_press", true, "Return".data, 3⟩ rfl rfl (Or.inl rfl)).1
  rw [h]; decide

/-- C7: a Delete/BackSpace key press (with `is_character` set) removes the
last accumulator character and emits nothing when the accumulator is
non-empty, and emits an empty-text `delete` event at the key timestamp
when the accumulator is empty; in particular the stream h, BackSpace,
BackSpace yields exactly one empty-text delete event. -/
theorem C7_delete_backspace_behavior (st : GroupState) (e : KeyEvent)
    (htype : e.type = "key_press") (hchar : e.is_character = true)
    (hkey : e.key_name = "Delete".data ∨ e.key_name = "BackSpace".data) :
    group_step st e =
      (if st.current_text ≠ [] then
        { st with current_text := st.current_text.dropLast }
      else
        { st with sequences :=
            st.sequences ++ [⟨some e.timestamp, [], "delete"⟩] })
    ∧ group_text_sequences [key_char 'h' 1, key_special "BackSpace" 2,
        key_special "BackSpace" 3]
      = [⟨some 3, [], "delete"⟩] := by
  constructor
  · rcases hkey with h | h <;> simp [group_step, htype, hchar, h]
  · decide

/-- C7 (witness): a BackSpace step on an empty accumulator emits exactly
the empty-text delete event. -/
theorem C7_delete_backspace_behavior_witness :
    group_step ⟨[], [], none⟩ ⟨"key_press", true, "BackSpace".data, 2⟩
      = ⟨[⟨some 2, [], "delete"⟩], [], none⟩ := by
  have h := (C7_delete_backspace_behavior ⟨[], [], none⟩
    ⟨"key_press", true, "BackSpace".data, 2⟩ rfl rfl (Or.inr rfl)).1
  rw [h]; decide

/-- C10: the grouper leaves its state unchanged on every event whose type
is not `key_press` or whose `is_character` flag is falsy (so such Return,
Enter, Tab, Delete and BackSpace presses neither emit, terminate nor
delete), and a character-key event that is none of the special keys is
accumulated only when its key name has length exactly 1. -/
theorem C10_grouper_ignores_non_characters (st : GroupState) (e : KeyEvent) :
    ((e.type ≠ "key_press" ∨ e.is_character = false) → group_step st e = st)
    ∧ (e.type = "key_press" → e.is_character = true →
        e.key_name ≠ "Return".data → e.key_name ≠ "Enter".data →
        e.key_name ≠ "Tab".data → e.key_name ≠ "Delete".data →
        e.key_name ≠ "BackSpace".data → e.key_name.length ≠ 1 →
        group_step st e = st) := by
  constructor
  · rintro (h | h) <;> simp [group_step, h]
  · intro htype hchar h1 h2 h3 h4 h5 hlen
    simp [group_step, htype, hchar, h1, h2, h3, h4, h5, hlen]

/-- C10 (witness): a non-key-press Return event, a Return press without
the character flag, and a two-character key name all leave the state
unchanged. -/
theorem C10_grouper_ignores_non_characters_witness :
    group_step ⟨[], [], none⟩ ⟨"key_release", true, "Return".data, 1⟩
        = ⟨[], [], none⟩
    ∧ group_step ⟨[], [], none⟩ ⟨"key_press", false, "Return".data, 1⟩
        = ⟨[], [], none⟩
    ∧ group_step ⟨[], [], none⟩ ⟨"key_press", true, "F1".data, 1⟩
        = ⟨[], [], none⟩ := by
  refine ⟨?_, ?_, ?_⟩
  · exact (C10_grouper_ignores_non_characters _ _).1 (Or.inl (by decide))
  · exact (C10_grouper_ignores_non_characters _ _).1 (Or.inr rfl)
  · exact (C10_grouper_ignores_non_characters _ _).2 rfl rfl (by decide)
      (by decide) (by decide) (by decide) (by decide) (by decide)

/-! ## Lemmas about the windower and the gap analyzer -/

theorem add_to_windows_flatten (ws : ℚ) (acc : List TimeWindow)
    (cur : TimeWindow) (rest : List UIInteraction) :
    ((add_to_windows ws acc cur rest).map TimeWindow.interactions).flatten
      = (acc.map TimeWindow.interactions).flatten ++ cur.interactions ++ rest := by
  induction rest generalizing acc cur with
  | nil => simp [add_to_windows]
  | cons i rest ih =>
    simp only [add_to_windows]
    split_ifs
    · rw [ih]; simp
    · rw [ih]; simp

theorem middle_gaps_duration (thr : ℚ) (l : List UIInteraction) :
    ∀ g ∈ middle_gaps thr l, thr < g.duration := by
  induction l with
  | nil => simp [middle_gaps]
  | cons a l ih =>
    cases l with
    | nil => simp [middle_gaps]
    | cons b rest =>
      intro g hg
      simp only [middle_gaps, List.mem_append] at hg
      rcases hg with hg | hg
      · split_ifs at hg with h
        · simp only [List.mem_singleton] at hg
          subst hg
          exact h
        · simp at hg
      · exact ih g hg

/-- C4: the windows returned by `_create_time_windows` partition the input
exactly: concatenating the interaction lists of the windows, in order,
gives back the input list (so every interaction lands in exactly one
window), the empty input yields no windows, and for timestamps
0, 1, 10, 10.5 with window size 2 the output is exactly the window from 0
to 1 holding the first two interactions and the window from 10 to 10.5
holding the last two. -/
theorem C4_time_windows_partition :
    (∀ (l : List UIInteraction) (ws : ℚ),
        ((create_time_windows l ws).map TimeWindow.interactions).flatten = l)
    ∧ (∀ ws : ℚ, create_time_windows [] ws = [])
    ∧ (create_time_windows
          [sample_click 0, sample_click 1, sample_click 10, sample_click 10.5] 2).map
        (fun w => (w.start, w.end_, w.interactions.map UIInteraction.timestamp))
      = [(0, 1, [0, 1]), (10, 10.5, [10, 10.5])] := by
  refine ⟨?_, ?_, ?_⟩
  · intro l ws
    cases l with
    | nil => simp [create_time_windows]
    | cons x xs => simp [create_time_windows, add_to_windows_flatten]
  · intro ws; rfl
  · norm_num [create_time_windows, add_to_windows, sample_click]

/-- C5: for every session duration and threshold, the gap analyzer on an
empty interaction list returns exactly one gap spanning the whole session;
in particular with session duration 30 the output is the single gap from 0
to 30 of duration 30. -/
theorem C5_empty_interactions_single_gap :
    (∀ d thr : ℚ, find_interaction_gaps [] d thr = [⟨0, d, d⟩])
    ∧ find_interaction_gaps [] 30 5 = [⟨0, 30, 30⟩] := by
  constructor
  · intro d thr; simp [find_interaction_gaps]
  · decide

/-- C3 (counterexample): with an empty interaction list, session duration
3 and threshold 5, the analyzer still returns the whole-session gap of
duration 3, which does not exceed the threshold — refuting the claim that
every returned gap has duration strictly greater than the threshold. -/
theorem C3_gap_threshold_counterexample :
    ¬ ∀ g ∈ find_interaction_gaps [] 3 5, (5:ℚ) < g.duration := by
  decide

/-- C3 (amended): for every NON-EMPTY interaction list, session duration
and threshold, every gap returned by the analyzer has duration strictly
greater than the threshold; only the single whole-session gap returned
for an empty input can be at or below it. -/
theorem C3_gaps_exceed_threshold (interactions : List UIInteraction)
    (d thr : ℚ) (hne : interactions ≠ []) :
    ∀ g ∈ find_interaction_gaps interactions d thr, thr < g.duration := by
  intro g hg
  rw [find_interaction_gaps, if_neg hne] at hg
  rcases hs : sort_by_timestamp interactions with _ | ⟨first, rest⟩
  · exfalso
    have hlen := length_sort_by_timestamp interactions
    rw [hs] at hlen
    exact hne (List.length_eq_zero.mp hlen.symm)
  · rw [hs] at hg
    simp only [List.mem_append] at hg
    rcases hg with (hg | hg) | hg
    · split_ifs at hg with h
      · simp only [List.mem_singleton] at hg
        subst hg
        exact h
      · simp at hg
    · exact middle_gaps_duration thr _ g hg
    · split_ifs at hg with h
      · simp only [List.mem_singleton] at hg
        subst hg
        exact h
      · simp at hg

/-- C3 (witness): for the single interaction at timestamp 10, session
duration 30 and threshold 5, the leading gap from 0 to 10 is returned and
its duration 10 exceeds the threshold. -/
theorem C3_gaps_exceed_threshold_witness : (5:ℚ) < (Gap.mk 0 10 10).duration := by
  refine C3_gaps_exceed_threshold [sample_click 10] 30 5 (by simp) _ ?_
  norm_num [find_interaction_gaps, sort_by_timestamp, ordered_insert_ts,
    middle_gaps, sample_click, List.getLast]

/-- C6: if two texts are scored (with any interaction lists and session
durations) such that the first has no login keyword, the second has one,
and the completion, adequate-length, Murex-pattern-threshold,
numbered-step and bold-header criteria evaluate identically on both, then
the score of the second text is exactly 2 greater than the score of the
first. -/
theorem C6_login_adds_two_to_score (c1 c2 : List Char) (d1 d2 : ℚ)
    (l1 l2 : List UIInteraction)
    (hlogin1 : has_login_of c1 = false) (hlogin2 : has_login_of c2 = true)
    (hcomp : has_completion_of c1 = has_completion_of c2)
    (hadl : adequate_length_of c1 l1 = adequate_length_of c2 l2)
    (hmx : has_murex_patterns_of c1 = has_murex_patterns_of c2)
    (hns : has_numbered_steps_of c1 = has_numbered_steps_of c2)
    (hdh : has_descriptive_headers_of c1 = has_descriptive_headers_of c2) :
    (assess_workflow_completeness c2 d2 l2).score
      = (assess_workflow_completeness c1 d1 l1).score + 2 := by
  simp only [assess_workflow_completeness]
  rw [hcomp, hadl, hmx, hns, hdh, hlogin1, hlogin2]
  simp
  omega

/-- C6 (witness): the empty text scores 0 and the text `login` scores 2,
all other criteria being false on both. -/
theorem C6_login_adds_two_to_score_witness :
    (assess_workflow_completeness "login".data 0 []).score
      = (assess_workflow_completeness [] 0 []).score + 2 :=
  C6_login_adds_two_to_score [] "login".data 0 0 [] [] (by decide) (by decide)
    (by decide) (by decide) (by decide) (by decide) (by decide)

/-- C8: the completeness scorer computes `expected_min_length` as
`max(400, 25 * len(interactions))` and sets `adequate_length` exactly when
the text length reaches it; a text of exactly that length is adequate and
a text one character shorter is not. -/
theorem C8_adequate_length_boundary (c : List Char) (d : ℚ)
    (l : List UIInteraction) :
    (assess_workflow_completeness c d l).expected_min_length
        = max 400 (25 * l.length)
    ∧ ((assess_workflow_completeness c d l).adequate_length = true
        ↔ c.length ≥ max 400 (25 * l.length))
    ∧ (c.length = max 400 (25 * l.length) →
        (assess_workflow_completeness c d l).adequate_length = true)
    ∧ (c.length = max 400 (25 * l.length) - 1 →
        (assess_workflow_completeness c d l).adequate_length = false) := by
  have hm : expected_min_length_of l = max 400 (25 * l.length) := by
    simp [expected_min_length_of, Nat.mul_comm]
  have hiff : (assess_workflow_completeness c d l).adequate_length = true
      ↔ c.length ≥ max 400 (25 * l.length) := by
    simp [assess_workflow_completeness, adequate_length_of, hm]
  refine ⟨?_, hiff, ?_, ?_⟩
  · simp [assess_workflow_completeness, hm]
  · intro h
    exact hiff.mpr (le_of_eq h.symm)
  · intro h
    rw [Bool.eq_false_iff]
    intro hc
    have := hiff.mp hc
    omega

/-- C8 (witness): with no interactions the expected minimum is 400; a
400-character text is adequate and a 399-character text is not. -/
theorem C8_adequate_length_boundary_witness :
    (assess_workflow_completeness (List.replicate 400 'x') 0 []).adequate_length
        = true
    ∧ (assess_workflow_completeness (List.replicate 399 'x') 0 []).adequate_length
        = false := by
  constructor
  · exact (C8_adequate_length_boundary (List.replicate 400 'x') 0 []).2.2.1
      (by rw [List.length_replicate]; rfl)
  · exact (C8_adequate_length_boundary (List.replicate 399 'x') 0 []).2.2.2
      (by rw [List.length_replicate]; rfl)

/-- C9: for every parsed JSON document lacking both the
`mouse_interactions` and the `keyboard_events` keys, the validator returns
at least one result of severity `error` and no result of severity `info`;
all invalidity is reported as returned data, never raised. -/
theorem C9_missing_keys_error (data : JsonData)
    (hm : data.mouse_interactions = none) (hk : data.keyboard_events = none) :
    ((validate_json_file data).any fun r => r.severity == "error") = true
    ∧ ((validate_json_file data).all fun r => r.severity != "info") = true := by
  simp only [validate_json_file, hm, hk]
  split_ifs <;> simp_all

/-- C9 (witness): the document with no keys at all yields an error result
and no info result. -/
theorem C9_missing_keys_error_witness :
    ((validate_json_file ⟨none, none, none⟩).any
        fun r => r.severity == "error") = true
    ∧ ((validate_json_file ⟨none, none, none⟩).all
        fun r => r.severity != "info") = true :=
  C9_missing_keys_error ⟨none, none, none⟩ rfl rfl
